import Mathlib

/-!
Verification of the query-validation core of the `sql_practice` repository
(`src/utils.py`): the value normalizer (`normalize_value`, `normalize_row`),
the result comparator (`compare_results`) and the sandboxed query executor
(`run_user_query`).

Modelling conventions:

* Python scalar values coming back from the database driver are modelled by
  the inductive type `Value`.  Python `float` and `decimal.Decimal` are both
  idealised as exact rationals (`ℚ`): the claims under study are about
  comparison behaviour, not about rounding, and `float(Decimal(...))` is
  modelled as the identity on the underlying rational value.  Temporal
  values are modelled as carrying their canonical `str()` rendering.
* A Python tuple (a row) is a `List Value`; a result set is a `List Row`.
* Python `==` between values is `pyEq`; it identifies numerically equal
  values across the numeric kinds (`bool`, `int`, `float`, `Decimal`),
  compares strings as strings, treats `None == None` as true and every
  cross-kind comparison as false, mirroring CPython.
* Python `<` between values is the partial function `pyLt`: comparisons
  between different kinds (and any comparison involving `None`) raise
  `TypeError`, modelled as `none`.  `sorted` is modelled as a stable
  insertion sort in the `Option` monad (`pySortRows`): it fails exactly when
  some comparison it performs fails, which is CPython's behaviour.
* `run_user_query` is modelled over an abstract engine: `Engine S` gives the
  effect of handing one SQL text to `cursor.execute` on a database state
  `S`.  Because psycopg2's simple-query protocol executes multi-statement
  text, an effect (`ExecEffect`) is an error, an ordinary success confined
  to the in-transaction view, or a success/failure in which the text itself
  issued transaction control (`"...; COMMIT"`), durably committing the view
  and destroying every savepoint.  A psycopg2 connection session (durable
  state, in-transaction view, aborted flag, savepoint stack) is the
  `Session` record; `run_user_query` itself never commits, closing the
  connection discards the view, and a `ROLLBACK TO SAVEPOINT` whose
  savepoint was destroyed raises, which the model propagates exactly along
  the source's nested try/except structure.
-/

/-- A scalar value as delivered by the database driver (spec §3 `Scalar`).
`vfloat`/`vdecimal` idealise Python `float`/`Decimal` as rationals; `vdate`
carries the canonical string rendering of a temporal value. -/
inductive Value where
  | vnone
  | vbool (b : Bool)
  | vint (n : ℤ)
  | vfloat (q : ℚ)
  | vdecimal (q : ℚ)
  | vdate (s : String)
  | vstr (s : String)
deriving DecidableEq

/-- A row: Python tuple of scalars. -/
abbrev Row := List Value

/-- The numeric value of a Python scalar, when it is numeric.  CPython's
`bool` is a subtype of `int`, so `True` has numeric value 1. -/
def numVal? : Value → Option ℚ
  | .vbool b => some (cond b 1 0)
  | .vint n => some (n : ℚ)
  | .vfloat q => some q
  | .vdecimal q => some q
  | _ => none

/-- Python `==` on scalars: numeric kinds compare by numeric value, strings
by content, `None == None` is `True`, all cross-kind comparisons `False`. -/
def pyEq (a b : Value) : Bool :=
  match numVal? a, numVal? b with
  | some x, some y => decide (x = y)
  | _, _ =>
    match a, b with
    | .vnone, .vnone => true
    | .vstr s, .vstr t => decide (s = t)
    | .vdate s, .vdate t => decide (s = t)
    | _, _ => false

/-- Python `<` on scalars: defined within the numeric kinds, within strings
and within temporal values; every other comparison raises `TypeError`
(modelled as `none`).  In particular `None` is not order-comparable with
anything, including itself. -/
def pyLt (a b : Value) : Option Bool :=
  match numVal? a, numVal? b with
  | some x, some y => some (decide (x < y))
  | _, _ =>
    match a, b with
    | .vstr s, .vstr t => some (decide (s < t))
    | .vdate s, .vdate t => some (decide (s < t))
    | _, _ => none

/-- Python `==` on tuples: equal length and pointwise `==`. -/
def rowEq : Row → Row → Bool
  | [], [] => true
  | a :: xs, b :: ys => pyEq a b && rowEq xs ys
  | _, _ => false

/-- Python `<` on tuples: lexicographic — skip positions where the elements
compare `==`, decide by `<` at the first differing position, and fall back
to length comparison when one tuple is a (pointwise-`==`) prefix of the
other.  Raises (`none`) when the deciding element comparison raises. -/
def rowLt : Row → Row → Option Bool
  | [], [] => some false
  | [], _ :: _ => some true
  | _ :: _, [] => some false
  | a :: xs, b :: ys => if pyEq a b then rowLt xs ys else pyLt a b

/-- Insert a row into an already-sorted accumulator, CPython style: the new
element `x` is the left operand of every comparison, and stops in front of
the first resident `y` with `x < y` (stable for equal elements). -/
def pyInsertRow (x : Row) : List Row → Option (List Row)
  | [] => some [x]
  | y :: ys => do
    let b ← rowLt x y
    if b then
      some (x :: y :: ys)
    else do
      let r ← pyInsertRow x ys
      some (y :: r)

/-- Left-to-right insertion pass over the input list. -/
def pySortAux : List Row → List Row → Option (List Row)
  | acc, [] => some acc
  | acc, x :: xs => do
    let acc' ← pyInsertRow x acc
    pySortAux acc' xs

/-- Python `sorted` on a list of rows: a stable comparison sort that raises
`TypeError` (modelled as `none`) when it has to compare incomparable rows. -/
def pySortRows (l : List Row) : Option (List Row) :=
  pySortAux [] l

/-- Python `==` on lists of rows: equal length and pointwise tuple `==`. -/
def pyListEqRows : List Row → List Row → Bool
  | [], [] => true
  | r :: rs, t :: ts => rowEq r t && pyListEqRows rs ts
  | _, _ => false

/-- `normalize_value` from `src/utils.py` (lines 182-199): `Decimal`
becomes `float`, `datetime`/`date` become their `str()`, `None` stays
`None`, everything else is unchanged. -/
def normalize_value : Value → Value
  | .vdecimal q => .vfloat q
  | .vdate s => .vstr s
  | .vnone => .vnone
  | v => v

/-- The normalizer as the spec's words describe it (§4.2): exact-decimal to
floating-point, temporal to canonical string, null to null, identity on all
other kinds.  Second definition for the refinement comparison with the
source-derived `normalize_value`. -/
def normalizeSpec : Value → Value
  | .vdecimal q => .vfloat q
  | .vdate s => .vstr s
  | .vnone => .vnone
  | .vbool b => .vbool b
  | .vint n => .vint n
  | .vfloat q => .vfloat q
  | .vstr s => .vstr s

/-- `normalize_row` from `src/utils.py` (lines 202-212). -/
def normalize_row (row : Row) : Row :=
  row.map normalize_value

/-- Python `str.lower()`, character by character.  (Lean's own
`String.toLower` is the same function on ASCII column names but does not
reduce inside the kernel, so the embedding carries its own copy.) -/
def str_lower (s : String) : String :=
  ⟨s.data.map Char.toLower⟩

/-- The dictionary returned by `compare_results` (spec §3
`ComparisonVerdict`). -/
structure Verdict where
  columns_match : Bool
  results_match : Bool
  correct : Bool
  user_row_count : ℕ
  expected_row_count : ℕ
  user_columns : List String
  expected_columns : List String
deriving DecidableEq

/-- The tail of `compare_results` once both inputs have been normalized:
sort, compare sorted sequences, compare lower-cased column-name sets, and
assemble the verdict.  Never touches `normalize_value` and never applies
anything but `str_lower` to column names. -/
def compareFromNormalized (un en : List Row) (ucount ecount : ℕ)
    (user_columns expected_columns : List String) : Option Verdict :=
  match pySortRows un, pySortRows en with
  | some us, some es =>
    let ucl := user_columns.map str_lower
    let ecl := expected_columns.map str_lower
    let cm := decide (ucl.toFinset = ecl.toFinset)
    let rm := pyListEqRows us es
    some ⟨cm, rm, cm && rm, ucount, ecount, user_columns, expected_columns⟩
  | _, _ => none

/-- `compare_results` from `src/utils.py` (lines 215-256).  Python's `set`
is modelled as `Finset`; the sort may raise `TypeError` (result `none`). -/
def compare_results (user_results expected_results : List Row)
    (user_columns expected_columns : List String) : Option Verdict :=
  let user_normalized := user_results.map normalize_row
  let expected_normalized := expected_results.map normalize_row
  match pySortRows user_normalized, pySortRows expected_normalized with
  | some user_sorted, some expected_sorted =>
    let user_cols_lower := user_columns.map str_lower
    let expected_cols_lower := expected_columns.map str_lower
    let columns_match := decide (user_cols_lower.toFinset = expected_cols_lower.toFinset)
    let results_match := pyListEqRows user_sorted expected_sorted
    some ⟨columns_match, results_match, columns_match && results_match,
          user_results.length, expected_results.length,
          user_columns, expected_columns⟩
  | _, _ => none

/-- The effect of handing one SQL text (possibly several `;`-separated
statements, as psycopg2's simple-query protocol allows) to `cursor.execute`
inside an open transaction whose in-transaction view is the input state:

* `error e` — a statement failed before any transaction control ran;
  all effects stay inside the (now aborted) transaction.
* `okData v desc` — the text contained no transaction control: the view
  becomes `v`, the savepoint survives, and `desc` is the cursor
  description of the last statement (rows and column names, present
  exactly when it returns a result set).
* `okCommit v desc` — the text itself issued transaction control (e.g.
  `"DELETE FROM users; COMMIT"`): the view `v` is durably committed and
  every savepoint is destroyed.
* `errorAfterCommit v e` — the text committed `v` durably and a later
  statement then failed with `e`, aborting the implicitly opened new
  transaction. -/
inductive ExecEffect (S : Type) where
  | error (e : String)
  | okData (v : S) (desc : Option (List Row × List String))
  | okCommit (v : S) (desc : Option (List Row × List String))
  | errorAfterCommit (v : S) (e : String)

/-- Abstract database engine: the effect of executing one SQL text on the
current in-transaction view. -/
structure Engine (S : Type) where
  exec : S → String → ExecEffect S

/-- The engine effect is confined to the transaction: the query text
contains no transaction control, so it can neither commit the view nor
destroy the savepoint. -/
def txnConfined {S : Type} : ExecEffect S → Bool
  | .error _ => true
  | .okData _ _ => true
  | .okCommit _ _ => false
  | .errorAfterCommit _ _ => false

/-- A psycopg2 connection session: the durable database state, the
in-transaction view, the aborted flag and the savepoint stack.
`run_user_query` itself never commits, but a `COMMIT` smuggled inside the
learner's query text can replace the durable state. -/
structure Session (S : Type) where
  durable : S
  view : S
  aborted : Bool
  savepoints : List (String × S)

/-- `cursor.execute("ROLLBACK TO SAVEPOINT name")`: when the savepoint
exists, restore the view recorded under it and clear the aborted flag
(Postgres allows this statement even in an aborted transaction); when it
does not exist (it was destroyed by a `COMMIT` inside the learner's query
text), the statement itself raises an engine error. -/
def doRollbackToSavepoint {S : Type} (name : String) (st : Session S) :
    Except String (Session S) :=
  match st.savepoints.lookup name with
  | some v => .ok { st with view := v, aborted := false }
  | none => .error ("savepoint " ++ name ++ " does not exist")

/-- Closing the connection without `COMMIT` discards the in-transaction
view; only the durable state survives. -/
def closeNoCommit {S : Type} (st : Session S) : S :=
  st.durable

/-- The dictionary returned by `run_user_query` (spec §3 `QueryOutcome`).
`results`/`columns` are `Option`s because the code returns `None` for them
on the failure paths and lists elsewhere. -/
structure Outcome where
  success : Bool
  results : Option (List Row)
  columns : Option (List String)
  row_count : ℕ
  error : Option String
  message : Option String
deriving DecidableEq

/-- `run_user_query` from `src/utils.py` (lines 111-179), straight-lined
over the session model.  `connectResult` is the outcome of `connect_db()`
(`.error e` when connecting raises).  Control flow mirrors the source: the
savepoint is created, the learner's text is executed, and each path then
runs `ROLLBACK TO SAVEPOINT test_query` — at line 137/148 inside the inner
`try` on success, whose own failure is caught by `except Error` at line
158, which retries the rollback at line 159; a failure of that second
rollback propagates to the outer `except Exception` at line 168.  When the
query text itself committed, the savepoint is gone, both rollbacks fail,
and the call returns a failure dictionary while the mutation stays
durably committed.  Returns the Python dictionary together with the final
session (just before `conn.close()`), or `none` for the session when no
connection was ever obtained. -/
def run_user_query {S : Type} (eng : Engine S) (connectResult : Except String S)
    (query : String) : Outcome × Option (Session S) :=
  match connectResult with
  | .error e =>
    (⟨false, none, none, 0, some e, none⟩, none)
  | .ok d =>
    let st0 : Session S := ⟨d, d, false, []⟩
    let st1 : Session S := { st0 with savepoints := ("test_query", st0.view) :: st0.savepoints }
    match eng.exec st1.view query with
    | .okData v desc =>
      let stq := { st1 with view := v }
      match doRollbackToSavepoint "test_query" stq with
      | .ok st2 =>
        match desc with
        | some (results, column_names) =>
          (⟨true, some results, some column_names, results.length, none, none⟩, some st2)
        | none =>
          (⟨true, some [], some [], 0, none,
            some "Query executed successfully (no results returned)"⟩, some st2)
      | .error e2 =>
        let stq2 := { stq with aborted := true }
        match doRollbackToSavepoint "test_query" stq2 with
        | .ok st2 => (⟨false, none, none, 0, some e2, none⟩, some st2)
        | .error e3 => (⟨false, none, none, 0, some e3, none⟩, some stq2)
    | .okCommit v desc =>
      let stc : Session S := ⟨v, v, false, []⟩
      match doRollbackToSavepoint "test_query" stc with
      | .ok st2 =>
        match desc with
        | some (results, column_names) =>
          (⟨true, some results, some column_names, results.length, none, none⟩, some st2)
        | none =>
          (⟨true, some [], some [], 0, none,
            some "Query executed successfully (no results returned)"⟩, some st2)
      | .error e2 =>
        let stc2 := { stc with aborted := true }
        match doRollbackToSavepoint "test_query" stc2 with
        | .ok st2 => (⟨false, none, none, 0, some e2, none⟩, some st2)
        | .error e3 => (⟨false, none, none, 0, some e3, none⟩, some stc2)
    | .errorAfterCommit v e =>
      let stc : Session S := ⟨v, v, true, []⟩
      match doRollbackToSavepoint "test_query" stc with
      | .ok st2 => (⟨false, none, none, 0, some e, none⟩, some st2)
      | .error e3 => (⟨false, none, none, 0, some e3, none⟩, some stc)
    | .error e =>
      let sta := { st1 with aborted := true }
      match doRollbackToSavepoint "test_query" sta with
      | .ok st2 => (⟨false, none, none, 0, some e, none⟩, some st2)
      | .error e3 => (⟨false, none, none, 0, some e3, none⟩, some sta)

/-- Durable database state after one `run_user_query` call started from
durable state `d` over a live connection. -/
def durableAfter {S : Type} (eng : Engine S) (query : String) (d : S) : S :=
  match (run_user_query eng (.ok d) query).2 with
  | some st => closeNoCommit st
  | none => d

/-- An engine on which every statement fails, as when the queried relation
does not exist. -/
def engFail : Engine ℕ :=
  ⟨fun _ _ => .error "relation no_such_table does not exist"⟩

/-- An engine on which every statement mutates the view and reports no
cursor description (pure DDL/DML, no transaction control). -/
def engDdl : Engine ℕ :=
  ⟨fun s _ => .okData (s + 1) none⟩

/-- An engine on which every statement mutates the view and returns one
row with one column. -/
def engRows : Engine ℕ :=
  ⟨fun s _ => .okData (s + 1) (some ([[Value.vint 1]], ["id"]))⟩

/-- An engine on which every query text mutates the state and then issues
`COMMIT` itself, as `"DELETE FROM users; COMMIT"` does through psycopg2's
multi-statement execution: the mutation is durably committed and the
savepoint destroyed. -/
def engCommit : Engine ℕ :=
  ⟨fun s _ => .okCommit (s + 1) none⟩

/-- Canonical key of a scalar: a kind tag together with the payload the
kind orders by.  Two scalars are Python-`==` equal iff their keys are equal,
and whenever Python `<` is defined it agrees with the (total) lexicographic
order on keys. -/
def canon : Value → ℕ × ℚ × String
  | .vnone => (0, 0, "")
  | .vbool b => (1, cond b 1 0, "")
  | .vint n => (1, (n : ℚ), "")
  | .vfloat q => (1, q, "")
  | .vdecimal q => (1, q, "")
  | .vstr s => (2, 0, s)
  | .vdate s => (3, 0, s)

/-- The key type: kind tag, numeric payload, string payload. -/
abbrev K := ℕ × ℚ × String

/-- Lexicographic strict order on keys (a genuine linear order). -/
def kLtb (a b : K) : Bool :=
  decide (a.1 < b.1) ||
    (decide (a.1 = b.1) &&
      (decide (a.2.1 < b.2.1) ||
        (decide (a.2.1 = b.2.1) && decide (a.2.2 < b.2.2))))

/-- Lexicographic strict order on key lists, with the Python tuple rule
that a strict prefix is smaller. -/
def klistLt : List K → List K → Bool
  | [], [] => false
  | [], _ :: _ => true
  | _ :: _, [] => false
  | a :: xs, b :: ys => if a = b then klistLt xs ys else kLtb a b

/-- Key sequence of a row. -/
def keyRow (r : Row) : List K :=
  r.map canon

/-- A row list is sorted when no earlier row has a key-greater later row. -/
def sortedByKeys (s : List Row) : Prop :=
  List.Pairwise (fun a b => klistLt (keyRow b) (keyRow a) = false) s

/-- Two rows are comparable when Python `<` on them does not raise. -/
def rowComparable (r1 r2 : Row) : Bool :=
  (rowLt r1 r2).isSome

theorem decide_lt_self {α : Type} [LinearOrder α] (a : α) :
    decide (a < a) = false := by
  simp

theorem kLtb_irrefl (a : K) : kLtb a a = false := by
  simp [kLtb]

theorem kLtb_trans {a b c : K} (h1 : kLtb a b = true) (h2 : kLtb b c = true) :
    kLtb a c = true := by
  obtain ⟨n1, q1, s1⟩ := a
  obtain ⟨n2, q2, s2⟩ := b
  obtain ⟨n3, q3, s3⟩ := c
  simp only [kLtb, Bool.or_eq_true, Bool.and_eq_true, decide_eq_true_eq] at h1 h2 ⊢
  rcases h1 with h1 | ⟨rfl, h1 | ⟨rfl, h1⟩⟩ <;>
    rcases h2 with h2 | ⟨rfl, h2 | ⟨rfl, h2⟩⟩
  · exact .inl (by omega)
  · exact .inl (by omega)
  · exact .inl (by omega)
  · exact .inl (by omega)
  · exact .inr ⟨rfl, .inl (lt_trans h1 h2)⟩
  · exact .inr ⟨rfl, .inl h1⟩
  · exact .inl (by omega)
  · exact .inr ⟨rfl, .inl h2⟩
  · exact .inr ⟨rfl, .inr ⟨rfl, lt_trans h1 h2⟩⟩

theorem kLtb_trichot (a b : K) : kLtb a b = true ∨ a = b ∨ kLtb b a = true := by
  obtain ⟨n1, q1, s1⟩ := a
  obtain ⟨n2, q2, s2⟩ := b
  simp only [kLtb, Bool.or_eq_true, Bool.and_eq_true, decide_eq_true_eq,
    Prod.mk.injEq]
  rcases lt_trichotomy n1 n2 with h | h | h
  · tauto
  · rcases lt_trichotomy q1 q2 with h2 | h2 | h2
    · tauto
    · rcases lt_trichotomy s1 s2 with h3 | h3 | h3 <;> tauto
    · tauto
  · tauto

theorem kLtb_asymm {a b : K} (h : kLtb a b = true) : kLtb b a = false := by
  cases hba : kLtb b a
  · rfl
  · have hself := kLtb_trans h hba
    rw [kLtb_irrefl] at hself
    cases hself

theorem kLtb_conn {a b : K} (h1 : kLtb a b = false) (h2 : kLtb b a = false) :
    a = b := by
  rcases kLtb_trichot a b with h | h | h
  · simp [h] at h1
  · exact h
  · simp [h] at h2

theorem klistLt_nil_right (l : List K) : klistLt l [] = false := by
  cases l <;> rfl

theorem klistLt_irrefl (l : List K) : klistLt l l = false := by
  induction l with
  | nil => rfl
  | cons a xs ih => simp [klistLt, ih]

theorem klistLt_trans {l1 l2 l3 : List K} (h1 : klistLt l1 l2 = true)
    (h2 : klistLt l2 l3 = true) : klistLt l1 l3 = true := by
  induction l1 generalizing l2 l3 with
  | nil =>
    cases l3 with
    | nil =>
      cases l2 with
      | nil => exact h1
      | cons b ys => rw [klistLt_nil_right] at h2; cases h2
    | cons c zs => rfl
  | cons a xs ih =>
    cases l2 with
    | nil => rw [klistLt_nil_right] at h1; cases h1
    | cons b ys =>
      cases l3 with
      | nil => rw [klistLt_nil_right] at h2; cases h2
      | cons c zs =>
        by_cases hab : a = b
        · subst hab
          rw [klistLt, if_pos rfl] at h1
          by_cases hbc : a = c
          · subst hbc
            rw [klistLt, if_pos rfl] at h2 ⊢
            exact ih h1 h2
          · rw [klistLt, if_neg hbc] at h2 ⊢
            exact h2
        · rw [klistLt, if_neg hab] at h1
          by_cases hbc : b = c
          · subst hbc
            rw [klistLt, if_neg hab]
            exact h1
          · rw [klistLt, if_neg hbc] at h2
            have hac : a ≠ c := by
              intro h
              subst h
              have := kLtb_trans h1 h2
              rw [kLtb_irrefl] at this
              cases this
            rw [klistLt, if_neg hac]
            exact kLtb_trans h1 h2

theorem klistLt_asymm {l1 l2 : List K} (h : klistLt l1 l2 = true) :
    klistLt l2 l1 = false := by
  cases hba : klistLt l2 l1
  · rfl
  · have hself := klistLt_trans h hba
    rw [klistLt_irrefl] at hself
    cases hself

theorem klistLt_conn {l1 l2 : List K} (h1 : klistLt l1 l2 = false)
    (h2 : klistLt l2 l1 = false) : l1 = l2 := by
  induction l1 generalizing l2 with
  | nil =>
    cases l2 with
    | nil => rfl
    | cons b ys => cases h1
  | cons a xs ih =>
    cases l2 with
    | nil => cases h2
    | cons b ys =>
      by_cases hab : a = b
      · subst hab
        rw [klistLt, if_pos rfl] at h1 h2
        rw [ih h1 h2]
      · rw [klistLt, if_neg hab] at h1
        rw [klistLt, if_neg (Ne.symm hab)] at h2
        exact absurd (kLtb_conn h1 h2) hab

theorem pyEq_canon (a b : Value) : pyEq a b = decide (canon a = canon b) := by
  cases a <;> cases b <;>
    simp [pyEq, numVal?, canon, Prod.ext_iff]

theorem pyLt_canon {a b : Value} {x : Bool} (h : pyLt a b = some x) :
    x = kLtb (canon a) (canon b) := by
  cases a <;> cases b <;>
    simp only [pyLt, numVal?] at h <;>
    cases h <;>
    simp [canon, kLtb, decide_lt_self]

theorem rowEq_keys (r1 r2 : Row) : rowEq r1 r2 = decide (keyRow r1 = keyRow r2) := by
  induction r1 generalizing r2 with
  | nil => cases r2 <;> simp [rowEq, keyRow]
  | cons a xs ih =>
    cases r2 with
    | nil => simp [rowEq, keyRow]
    | cons b ys =>
      rw [rowEq, pyEq_canon, ih]
      simp only [keyRow, List.map_cons, List.cons.injEq]
      by_cases hc : canon a = canon b
      · simp [hc]
      · simp [hc]

theorem rowLt_keys {r1 r2 : Row} {x : Bool} (h : rowLt r1 r2 = some x) :
    x = klistLt (keyRow r1) (keyRow r2) := by
  induction r1 generalizing r2 with
  | nil =>
    cases r2 with
    | nil => cases h; rfl
    | cons b ys => cases h; rfl
  | cons a xs ih =>
    cases r2 with
    | nil => cases h; simp [keyRow, klistLt_nil_right]
    | cons b ys =>
      rw [rowLt] at h
      by_cases he : pyEq a b = true
      · have hc : canon a = canon b := by
          rw [pyEq_canon] at he
          exact of_decide_eq_true he
        rw [if_pos he] at h
        simp only [keyRow, List.map_cons, klistLt, hc, if_pos rfl]
        exact ih h
      · have hc : canon a ≠ canon b := by
          rw [pyEq_canon] at he
          exact of_decide_eq_false (Bool.not_eq_true _ ▸ Bool.of_not_eq_true he)
        rw [if_neg he] at h
        simp only [keyRow, List.map_cons, klistLt, if_neg hc]
        exact pyLt_canon h

theorem pyListEqRows_keys (l1 l2 : List Row) :
    pyListEqRows l1 l2 = decide (l1.map keyRow = l2.map keyRow) := by
  induction l1 generalizing l2 with
  | nil => cases l2 <;> simp [pyListEqRows]
  | cons r rs ih =>
    cases l2 with
    | nil => simp [pyListEqRows]
    | cons t ts =>
      rw [pyListEqRows, rowEq_keys, ih]
      simp only [List.map_cons, List.cons.injEq]
      by_cases hk : keyRow r = keyRow t
      · simp [hk]
      · simp [hk]

theorem pyInsertRow_perm {x : Row} {ys s : List Row}
    (h : pyInsertRow x ys = some s) : s.Perm (x :: ys) := by
  induction ys generalizing s with
  | nil =>
    cases h
    exact List.Perm.refl _
  | cons y ys ih =>
    rw [pyInsertRow] at h
    cases hxy : rowLt x y with
    | none => rw [hxy] at h; cases h
    | some b =>
      rw [hxy] at h
      simp only [Option.bind_eq_bind, Option.some_bind] at h
      cases b with
      | true =>
        cases h
        exact List.Perm.refl _
      | false =>
        cases hr : pyInsertRow x ys with
        | none => rw [hr] at h; cases h
        | some r =>
          rw [hr] at h
          cases h
          exact ((ih hr).cons y).trans (List.Perm.swap x y ys)

theorem pySortAux_perm {l : List Row} :
    ∀ {acc s : List Row}, pySortAux acc l = some s → s.Perm (acc ++ l) := by
  induction l with
  | nil =>
    intro acc s h
    cases h
    simp
  | cons x xs ih =>
    intro acc s h
    rw [pySortAux] at h
    cases hi : pyInsertRow x acc with
    | none => rw [hi] at h; cases h
    | some acc' =>
      rw [hi] at h
      simp only [Option.bind_eq_bind, Option.some_bind] at h
      have hp := ih h
      have hinsert := pyInsertRow_perm hi
      have : (acc' ++ xs).Perm ((x :: acc) ++ xs) := hinsert.append_right xs
      have hmid : ((x :: acc) ++ xs).Perm (acc ++ x :: xs) := by
        simp only [List.cons_append]
        exact (List.perm_middle).symm
      exact (hp.trans this).trans hmid

theorem pySortRows_perm {l s : List Row} (h : pySortRows l = some s) :
    s.Perm l := by
  have := @pySortAux_perm l [] s h
  simpa using this

theorem pyInsertRow_sorted {x : Row} {ys s : List Row}
    (hs : sortedByKeys ys) (h : pyInsertRow x ys = some s) : sortedByKeys s := by
  induction ys generalizing s with
  | nil =>
    cases h
    exact List.pairwise_singleton _ _
  | cons y ys ih =>
    rw [pyInsertRow] at h
    cases hxy : rowLt x y with
    | none => rw [hxy] at h; cases h
    | some b =>
      rw [hxy] at h
      simp only [Option.bind_eq_bind, Option.some_bind] at h
      have hkey := rowLt_keys hxy
      rcases List.pairwise_cons.mp hs with ⟨hy, hys⟩
      cases b with
      | true =>
        cases h
        refine List.pairwise_cons.mpr ⟨?_, hs⟩
        intro z hz
        rcases hz with _ | hz
        · exact klistLt_asymm hkey.symm
        · rename_i hz
          have hyz := hy _ hz
          cases hzx : klistLt (keyRow z) (keyRow x)
          · rfl
          · have h1 : klistLt (keyRow x) (keyRow y) = true := hkey.symm
            have h2 := klistLt_trans hzx h1
            rw [h2] at hyz
            cases hyz
      | false =>
        cases hr : pyInsertRow x ys with
        | none => rw [hr] at h; cases h
        | some r =>
          rw [hr] at h
          cases h
          refine List.pairwise_cons.mpr ⟨?_, ih hys hr⟩
          intro z hz
          have hmem := List.mem_cons.mp ((pyInsertRow_perm hr).mem_iff.mp hz)
          rcases hmem with hzx | hzys
          · subst hzx
            exact hkey.symm
          · exact hy _ hzys

theorem pySortAux_sorted {l : List Row} :
    ∀ {acc s : List Row}, sortedByKeys acc → pySortAux acc l = some s →
      sortedByKeys s := by
  induction l with
  | nil =>
    intro acc s hacc h
    cases h
    exact hacc
  | cons x xs ih =>
    intro acc s hacc h
    rw [pySortAux] at h
    cases hi : pyInsertRow x acc with
    | none => rw [hi] at h; cases h
    | some acc' =>
      rw [hi] at h
      simp only [Option.bind_eq_bind, Option.some_bind] at h
      exact ih (pyInsertRow_sorted hacc hi) h

theorem pySortRows_sorted {l s : List Row} (h : pySortRows l = some s) :
    sortedByKeys s :=
  pySortAux_sorted List.Pairwise.nil h

theorem pySortRows_eq_of_key_perm {l1 l2 s1 s2 : List Row}
    (h1 : pySortRows l1 = some s1) (h2 : pySortRows l2 = some s2)
    (hp : (l1.map keyRow).Perm (l2.map keyRow)) :
    pyListEqRows s1 s2 = true := by
  have hperm : (s1.map keyRow).Perm (s2.map keyRow) :=
    (((pySortRows_perm h1).map keyRow).trans hp).trans
      ((pySortRows_perm h2).map keyRow).symm
  have hs1 : (s1.map keyRow).Pairwise (fun a b => klistLt b a = false) :=
    (List.pairwise_map).mpr (pySortRows_sorted h1)
  have hs2 : (s2.map keyRow).Pairwise (fun a b => klistLt b a = false) :=
    (List.pairwise_map).mpr (pySortRows_sorted h2)
  haveI : IsAntisymm (List K) (fun a b => klistLt b a = false) :=
    ⟨fun _ _ ha hb => klistLt_conn hb ha⟩
  have heq : s1.map keyRow = s2.map keyRow :=
    List.eq_of_perm_of_sorted hperm hs1 hs2
  rw [pyListEqRows_keys, heq]
  simp

theorem pyListEqRows_key_eq {s1 s2 : List Row} (h : pyListEqRows s1 s2 = true) :
    s1.map keyRow = s2.map keyRow := by
  rw [pyListEqRows_keys] at h
  exact of_decide_eq_true h

theorem pyInsertRow_total {x : Row} {ys : List Row}
    (h : ∀ y ∈ ys, rowComparable x y = true) : (pyInsertRow x ys).isSome := by
  induction ys with
  | nil => rfl
  | cons y ys ih =>
    have hxy : (rowLt x y).isSome := h y (List.mem_cons_self y ys)
    rw [pyInsertRow]
    cases hb : rowLt x y with
    | none => rw [hb] at hxy; cases hxy
    | some b =>
      simp only [Option.bind_eq_bind, Option.some_bind]
      cases b with
      | true => rfl
      | false =>
        have := ih (fun z hz => h z (List.mem_cons_of_mem y hz))
        cases hr : pyInsertRow x ys with
        | none => rw [hr] at this; cases this
        | some r => rfl

theorem pySortAux_total {l : List Row} :
    ∀ {acc : List Row}, (∀ x ∈ l, ∀ y ∈ acc, rowComparable x y = true) →
      (∀ a ∈ l, ∀ b ∈ l, rowComparable a b = true) →
      (pySortAux acc l).isSome := by
  induction l with
  | nil => intro acc _ _; rfl
  | cons x xs ih =>
    intro acc hla hll
    have hins : (pyInsertRow x acc).isSome :=
      pyInsertRow_total (hla x (List.mem_cons_self x xs))
    rw [pySortAux]
    cases hi : pyInsertRow x acc with
    | none => rw [hi] at hins; cases hins
    | some acc' =>
      simp only [Option.bind_eq_bind, Option.some_bind]
      refine ih ?_ ?_
      · intro z hz y hy
        have hy' := List.mem_cons.mp ((pyInsertRow_perm hi).mem_iff.mp hy)
        rcases hy' with h1 | hy'
        · cases h1
          exact hll z (List.mem_cons_of_mem _ hz) _ (List.mem_cons_self _ _)
        · exact hla z (List.mem_cons_of_mem _ hz) y hy'
      · intro a ha b hb
        exact hll a (List.mem_cons_of_mem x ha) b (List.mem_cons_of_mem x hb)

theorem pySortRows_total {l : List Row}
    (h : ∀ a ∈ l, ∀ b ∈ l, rowComparable a b = true) :
    (pySortRows l).isSome :=
  pySortAux_total (fun _ _ y hy => absurd hy (List.not_mem_nil y)) h

/-- C1 counterexample: the claim's "for every query string q" is false of
the program.  A query text that itself issues transaction control, such as
`"DELETE FROM users; COMMIT"` (modelled by `engCommit`), durably commits
the mutation and destroys the savepoint; the `ROLLBACK TO SAVEPOINT` at
utils.py lines 148 and 159 then fails, the call returns a failure
dictionary, and the durable database state is changed (here from 0 to 1). -/
theorem c1_counterexample :
    durableAfter engCommit "DELETE FROM users; COMMIT" 0 = 1 ∧
    durableAfter engCommit "DELETE FROM users; COMMIT" 0 ≠ 0 ∧
    (run_user_query engCommit (Except.ok 0) "DELETE FROM users; COMMIT").1.success = false ∧
    (run_user_query engCommit (Except.ok 0) "DELETE FROM users; COMMIT").1.error =
      some "savepoint test_query does not exist" := by
  decide

/-- C1 amended: for every query whose execution is confined to the
transaction — the statement text contains no transaction control, so the
engine effect is an ordinary success or an ordinary error — every
`run_user_query` call leaves the shared database state unchanged: on the
success-with-rows, success-without-results and error paths alike the
executor reverts to the savepoint before returning (the final session's
in-transaction view equals the initial state), the transaction is never
committed by the executor itself, so the durable state after the call
equals the state before it, and repeating the call any number of times
leaves the durable state — and hence any subsequent `SELECT COUNT(*)`
observation — unchanged.  Query texts that smuggle in transaction control
(e.g. `"...; COMMIT"`) are excluded: on those the guarantee fails, as the
counterexample shows. -/
theorem c1_confined_queries_leave_database_unchanged :
    ∀ (S : Type) (eng : Engine S) (d : S) (q : String),
      txnConfined (eng.exec d q) = true →
      (∃ st : Session S, (run_user_query eng (Except.ok d) q).2 = some st ∧
        st.durable = d ∧ st.view = d) ∧
      durableAfter eng q d = d ∧
      ∀ n : ℕ, (durableAfter eng q)^[n] d = d := by
  intro S eng d q hconf
  have hmain : ∃ st : Session S, (run_user_query eng (Except.ok d) q).2 = some st ∧
      st.durable = d ∧ st.view = d := by
    cases h : eng.exec d q with
    | error e =>
      refine ⟨⟨d, d, false, [("test_query", d)]⟩, ?_, rfl, rfl⟩
      simp [run_user_query, h, doRollbackToSavepoint, List.lookup]
    | okData v desc =>
      cases desc with
      | none =>
        refine ⟨⟨d, d, false, [("test_query", d)]⟩, ?_, rfl, rfl⟩
        simp [run_user_query, h, doRollbackToSavepoint, List.lookup]
      | some rc =>
        refine ⟨⟨d, d, false, [("test_query", d)]⟩, ?_, rfl, rfl⟩
        simp [run_user_query, h, doRollbackToSavepoint, List.lookup]
    | okCommit v desc =>
      rw [h] at hconf
      cases hconf
    | errorAfterCommit v e =>
      rw [h] at hconf
      cases hconf
  have hd : durableAfter eng q d = d := by
    obtain ⟨st, h2, hdur, _⟩ := hmain
    simp [durableAfter, h2, closeNoCommit, hdur]
  refine ⟨hmain, hd, ?_⟩
  intro n
  induction n with
  | zero => rfl
  | succ k ih => rw [Function.iterate_succ_apply', ih, hd]

/-- C1 witness: the amended theorem applied to the concrete
transaction-control-free DDL engine `engDdl`. -/
theorem c1_witness :
    txnConfined (engDdl.exec 0 "DROP TABLE t") = true ∧
    ((∃ st : Session ℕ, (run_user_query engDdl (Except.ok 0) "DROP TABLE t").2 = some st ∧
        st.durable = 0 ∧ st.view = 0) ∧
      durableAfter engDdl "DROP TABLE t" 0 = 0 ∧
      ∀ n : ℕ, (durableAfter engDdl "DROP TABLE t")^[n] 0 = 0) :=
  ⟨by decide,
   c1_confined_queries_leave_database_unchanged ℕ engDdl 0 "DROP TABLE t" (by decide)⟩

/-- C3 counterexample: on the engine-error path the code stores `None`
(absent), not the empty list, in the `results` and `columns` fields, so the
returned value is not of the claimed form
`{success:false, error:…, rows:[], columns:[]}`. -/
theorem c3_counterexample :
    (run_user_query engFail (Except.ok 0) "SELECT * FROM no_such_table").1.success = false ∧
    (run_user_query engFail (Except.ok 0) "SELECT * FROM no_such_table").1.results ≠ some [] ∧
    (run_user_query engFail (Except.ok 0) "SELECT * FROM no_such_table").1.columns ≠ some [] ∧
    (run_user_query engFail (Except.ok 0) "SELECT * FROM no_such_table").1.results = none ∧
    (run_user_query engFail (Except.ok 0) "SELECT * FROM no_such_table").1.columns = none := by
  decide

/-- C3 amended: `run_user_query` never raises — every failure mode (an
engine-reported execution error, or a connection-acquisition failure) is
converted into the returned value
`{success:false, results:None, columns:None, row_count:0, error:<message>}`
with `results`/`columns` null/absent (not empty lists) and `error` carrying
the engine's message verbatim (hence non-empty whenever the engine message
is non-empty). -/
theorem c3_amended_failures_returned_as_values :
    (∀ (S : Type) (eng : Engine S) (d : S) (q e : String),
        eng.exec d q = ExecEffect.error e →
        (run_user_query eng (Except.ok d) q).1 =
          ⟨false, none, none, 0, some e, none⟩) ∧
    (∀ (S : Type) (eng : Engine S) (e q : String),
        (run_user_query eng (Except.error e) q).1 =
          ⟨false, none, none, 0, some e, none⟩) := by
  constructor
  · intro S eng d q e h
    simp [run_user_query, h, doRollbackToSavepoint, List.lookup]
  · intro S eng e q
    rfl

/-- C3 witness: the amended theorem applied to the concrete failing engine
`engFail`. -/
theorem c3_witness :
    (run_user_query engFail (Except.ok 0) "SELECT * FROM no_such_table").1 =
      ⟨false, none, none, 0, some "relation no_such_table does not exist", none⟩ :=
  c3_amended_failures_returned_as_values.1 ℕ engFail 0
    "SELECT * FROM no_such_table" "relation no_such_table does not exist" rfl

/-- C8 counterexample: on the success-without-metadata path the code's
message is `"Query executed successfully (no results returned)"`, not the
claimed literal `"executed, no results"`. -/
theorem c8_counterexample :
    (run_user_query engDdl (Except.ok 0) "CREATE TABLE t (x INT)").1.success = true ∧
    (run_user_query engDdl (Except.ok 0) "CREATE TABLE t (x INT)").1.message ≠
      some "executed, no results" ∧
    (run_user_query engDdl (Except.ok 0) "CREATE TABLE t (x INT)").1.message =
      some "Query executed successfully (no results returned)" := by
  decide

/-- C8 amended: for every query that the engine executes successfully but
that reports no column metadata (pure DDL/DML), `run_user_query` returns
exactly `{success:true, results:[], columns:[], row_count:0, error:None,
message:"Query executed successfully (no results returned)"}`. -/
theorem c8_amended_no_metadata_outcome :
    ∀ (S : Type) (eng : Engine S) (d : S) (q : String) (s2 : S),
      eng.exec d q = ExecEffect.okData s2 none →
      (run_user_query eng (Except.ok d) q).1 =
        ⟨true, some [], some [], 0, none,
          some "Query executed successfully (no results returned)"⟩ := by
  intro S eng d q s2 h
  simp [run_user_query, h, doRollbackToSavepoint, List.lookup]

/-- C8 witness: the amended theorem applied to the concrete DDL engine
`engDdl`. -/
theorem c8_witness :
    (run_user_query engDdl (Except.ok 0) "DROP TABLE t").1 =
      ⟨true, some [], some [], 0, none,
        some "Query executed successfully (no results returned)"⟩ :=
  c8_amended_no_metadata_outcome ℕ engDdl 0 "DROP TABLE t" 1 rfl

theorem compare_results_inv {u e : List Row} {uc ec : List String} {v : Verdict}
    (h : compare_results u e uc ec = some v) :
    ∃ us es, pySortRows (u.map normalize_row) = some us ∧
      pySortRows (e.map normalize_row) = some es ∧
      v = ⟨decide ((uc.map str_lower).toFinset = (ec.map str_lower).toFinset),
           pyListEqRows us es,
           decide ((uc.map str_lower).toFinset = (ec.map str_lower).toFinset) &&
             pyListEqRows us es,
           u.length, e.length, uc, ec⟩ := by
  simp only [compare_results] at h
  cases hsu : pySortRows (u.map normalize_row) with
  | none =>
    rw [hsu] at h
    exact Option.noConfusion h
  | some us =>
    rw [hsu] at h
    cases hse : pySortRows (e.map normalize_row) with
    | none =>
      rw [hse] at h
      exact Option.noConfusion h
    | some es =>
      rw [hse] at h
      injection h with h
      exact ⟨us, es, rfl, rfl, h.symm⟩

/-- C2 counterexample: `compare_results` is not total — on a candidate
result set whose rows mix an integer and a string, Python 3's sort has no
cross-type ordering and raises `TypeError` (modelled as `none`), even
though the inputs are well-formed row lists. -/
theorem c2_counterexample :
    compare_results [[Value.vint 1], [Value.vstr "a"]] [] ["c"] [] = none := by
  decide

/-- C2 amended: `compare_results` returns a verdict (raises nothing)
whenever the normalized rows of the two inputs are mutually comparable
under the engine values' order — there is no fixed cross-type ordering, and
comparing values of incomparable kinds (a number with a string, or null
with anything) raises `TypeError` instead; when both inputs are empty the
verdict has `results_match = true`. -/
theorem c2_amended_total_on_comparable_inputs :
    ∀ (u e : List Row) (uc ec : List String),
      (∀ r1 ∈ (u ++ e).map normalize_row, ∀ r2 ∈ (u ++ e).map normalize_row,
        rowComparable r1 r2 = true) →
      ∃ v : Verdict, compare_results u e uc ec = some v ∧
        (u = [] → e = [] → v.results_match = true) := by
  intro u e uc ec hcomp
  have hu : ∀ a ∈ u.map normalize_row, ∀ b ∈ u.map normalize_row,
      rowComparable a b = true := by
    intro a ha b hb
    refine hcomp a ?_ b ?_ <;> rw [List.map_append] <;>
      exact List.mem_append_left _ (by assumption)
  have he : ∀ a ∈ e.map normalize_row, ∀ b ∈ e.map normalize_row,
      rowComparable a b = true := by
    intro a ha b hb
    refine hcomp a ?_ b ?_ <;> rw [List.map_append] <;>
      exact List.mem_append_right _ (by assumption)
  obtain ⟨us, hsu⟩ := Option.isSome_iff_exists.mp (pySortRows_total hu)
  obtain ⟨es, hse⟩ := Option.isSome_iff_exists.mp (pySortRows_total he)
  have hcq : compare_results u e uc ec =
      some ⟨decide ((uc.map str_lower).toFinset = (ec.map str_lower).toFinset),
            pyListEqRows us es,
            decide ((uc.map str_lower).toFinset = (ec.map str_lower).toFinset) &&
              pyListEqRows us es,
            u.length, e.length, uc, ec⟩ := by
    simp only [compare_results]
    rw [hsu, hse]
  refine ⟨_, hcq, ?_⟩
  intro hu0 he0
  subst hu0
  subst he0
  have h1 : ([] : List Row) = us := by
    have := hsu
    simp only [List.map_nil, pySortRows, pySortAux] at this
    exact Option.some.inj this
  have h2 : ([] : List Row) = es := by
    have := hse
    simp only [List.map_nil, pySortRows, pySortAux] at this
    exact Option.some.inj this
  subst h1
  subst h2
  rfl

/-- C2 witness: the amended theorem applied to a concrete comparable pair
of inputs. -/
theorem c2_witness :
    (∀ r1 ∈ (([[Value.vint 2]] ++ [[Value.vint 1]] : List Row)).map normalize_row,
      ∀ r2 ∈ (([[Value.vint 2]] ++ [[Value.vint 1]] : List Row)).map normalize_row,
        rowComparable r1 r2 = true) ∧
    (∃ v : Verdict, compare_results [[Value.vint 2]] [[Value.vint 1]] ["a"] ["a"] = some v ∧
      ([[Value.vint 2]] = ([] : List Row) → [[Value.vint 1]] = ([] : List Row) →
        v.results_match = true)) :=
  ⟨by decide,
   c2_amended_total_on_comparable_inputs [[Value.vint 2]] [[Value.vint 1]] ["a"] ["a"]
     (by decide)⟩

/-- C4: `columns_match` is exactly equality of the sets of lower-cased
column names — insensitive to column order and case, and sensitive to the
name set itself (any extra, missing or renamed column makes the sets, and
hence the flag, differ). -/
theorem c4_columns_match_iff_lower_name_sets :
    ∀ (u e : List Row) (uc ec : List String) (v : Verdict),
      compare_results u e uc ec = some v →
      (v.columns_match = true ↔
        (uc.map str_lower).toFinset = (ec.map str_lower).toFinset) := by
  intro u e uc ec v h
  obtain ⟨us, es, _, _, hv⟩ := compare_results_inv h
  subst hv
  exact decide_eq_true_iff

/-- C4 witness: the theorem applied at `['Name','Age']` vs `['age','name']`
(case- and order-insensitive: the flag is true). -/
theorem c4_witness :
    (compare_results [] [] ["Name", "Age"] ["age", "name"] =
      some ⟨true, true, true, 0, 0, ["Name", "Age"], ["age", "name"]⟩) ∧
    (⟨true, true, true, 0, 0, ["Name", "Age"], ["age", "name"]⟩ : Verdict).columns_match
      = true := by
  have h : compare_results [] [] ["Name", "Age"] ["age", "name"] =
      some ⟨true, true, true, 0, 0, ["Name", "Age"], ["age", "name"]⟩ := by decide
  exact ⟨h, (c4_columns_match_iff_lower_name_sets [] [] _ _ _ h).mpr (by decide)⟩

/-- C5: `results_match` is insensitive to row order — for every pair of row
lists that are permutations of each other and on which the comparator
returns a verdict at all (the rows are mutually sortable after
normalization), the verdict has `results_match = true`. -/
theorem c5_rows_match_insensitive_to_row_order :
    ∀ (u e : List Row) (c : List String) (v : Verdict),
      u.Perm e → compare_results u e c c = some v → v.results_match = true := by
  intro u e c v hp h
  obtain ⟨us, es, hsu, hse, hv⟩ := compare_results_inv h
  subst hv
  exact pySortRows_eq_of_key_perm hsu hse ((hp.map normalize_row).map keyRow)

/-- C5 witness: the theorem applied at the claim's concrete example
`[(1,'a'),(2,'b')]` vs `[(2,'b'),(1,'a')]`. -/
theorem c5_witness :
    (([[Value.vint 1, Value.vstr "a"], [Value.vint 2, Value.vstr "b"]] : List Row).Perm
      [[Value.vint 2, Value.vstr "b"], [Value.vint 1, Value.vstr "a"]]) ∧
    (compare_results [[Value.vint 1, Value.vstr "a"], [Value.vint 2, Value.vstr "b"]]
        [[Value.vint 2, Value.vstr "b"], [Value.vint 1, Value.vstr "a"]]
        ["x", "y"] ["x", "y"] =
      some ⟨true, true, true, 2, 2, ["x", "y"], ["x", "y"]⟩) ∧
    (⟨true, true, true, 2, 2, ["x", "y"], ["x", "y"]⟩ : Verdict).results_match = true := by
  have h : compare_results [[Value.vint 1, Value.vstr "a"], [Value.vint 2, Value.vstr "b"]]
      [[Value.vint 2, Value.vstr "b"], [Value.vint 1, Value.vstr "a"]]
      ["x", "y"] ["x", "y"] =
      some ⟨true, true, true, 2, 2, ["x", "y"], ["x", "y"]⟩ := by decide
  exact ⟨by decide, h,
    c5_rows_match_insensitive_to_row_order _ _ _ _ (by decide) h⟩

/-- C6: the source normalizer maps exact-decimal to floating-point,
temporal to canonical string, null to null and everything else to itself
(it refines the spec-side `normalizeSpec` exactly); it is applied
element-wise to every value of every row of both inputs before comparison
(`compare_results` factors through `compareFromNormalized` applied to the
mapped rows); and it is never applied to column names — the
`columns_match` verdict is a function of the column lists alone,
independent of both row inputs. -/
theorem c6_normalizer_shape :
    (∀ v : Value, normalize_value v = normalizeSpec v) ∧
    (∀ r : Row, normalize_row r = r.map normalize_value) ∧
    (∀ (u e : List Row) (uc ec : List String),
      compare_results u e uc ec =
        compareFromNormalized (u.map normalize_row) (e.map normalize_row)
          u.length e.length uc ec) ∧
    (∀ (u e u2 e2 : List Row) (uc ec : List String) (v v2 : Verdict),
      compare_results u e uc ec = some v →
      compare_results u2 e2 uc ec = some v2 →
      v.columns_match = v2.columns_match) := by
  refine ⟨fun v => by cases v <;> rfl, fun r => rfl, fun u e uc ec => rfl, ?_⟩
  intro u e u2 e2 uc ec v v2 h h2
  obtain ⟨us, es, _, _, hv⟩ := compare_results_inv h
  obtain ⟨us2, es2, _, _, hv2⟩ := compare_results_inv h2
  subst hv
  subst hv2
  rfl

/-- C6 witness: the row-independence conjunct applied at concrete inputs
with different rows but the same column lists. -/
theorem c6_witness :
    (compare_results [[Value.vint 1]] [] ["a"] ["c"] =
      some ⟨false, false, false, 1, 0, ["a"], ["c"]⟩) ∧
    (compare_results [[Value.vstr "b"]] [] ["a"] ["c"] =
      some ⟨false, false, false, 1, 0, ["a"], ["c"]⟩) ∧
    (⟨false, false, false, 1, 0, ["a"], ["c"]⟩ : Verdict).columns_match =
      (⟨false, false, false, 1, 0, ["a"], ["c"]⟩ : Verdict).columns_match := by
  have h1 : compare_results [[Value.vint 1]] [] ["a"] ["c"] =
      some ⟨false, false, false, 1, 0, ["a"], ["c"]⟩ := by decide
  have h2 : compare_results [[Value.vstr "b"]] [] ["a"] ["c"] =
      some ⟨false, false, false, 1, 0, ["a"], ["c"]⟩ := by decide
  exact ⟨h1, h2, c6_normalizer_shape.2.2.2 _ _ _ _ _ _ _ _ h1 h2⟩

/-- C7: normalized-value equality identifies equal numbers across kinds
but never identifies null with non-null: exact-decimal `10.00` normalizes
to the same value as floating-point `10.0` (both are the rational 10 in
the embedding), rows with null in the same position on both sides compare
equal, and null vs `0` or null vs the empty string compare unequal. -/
theorem c7_decimal_float_and_null_handling :
    normalize_value (Value.vdecimal 10) = Value.vfloat 10 ∧
    normalize_value (Value.vfloat 10) = Value.vfloat 10 ∧
    normalize_value (Value.vdecimal 10) = normalize_value (Value.vfloat 10) ∧
    pyEq (normalize_value (Value.vdecimal 10)) (normalize_value (Value.vfloat 10)) = true ∧
    (compare_results [[Value.vnone]] [[Value.vnone]] ["c"] ["c"]).map
      Verdict.results_match = some true ∧
    (compare_results [[Value.vnone]] [[Value.vint 0]] ["c"] ["c"]).map
      Verdict.results_match = some false ∧
    (compare_results [[Value.vnone]] [[Value.vstr ""]] ["c"] ["c"]).map
      Verdict.results_match = some false := by
  decide

/-- C9: whenever `compare_results` returns a verdict, its `correct` field
is the conjunction of `columns_match` and `results_match`, and the two row
counts are the raw (pre-sort, pre-dedup) lengths of the original inputs. -/
theorem c9_correct_conjunction_and_raw_counts :
    ∀ (u e : List Row) (uc ec : List String) (v : Verdict),
      compare_results u e uc ec = some v →
      v.correct = (v.columns_match && v.results_match) ∧
      v.user_row_count = u.length ∧
      v.expected_row_count = e.length := by
  intro u e uc ec v h
  obtain ⟨us, es, _, _, hv⟩ := compare_results_inv h
  subst hv
  exact ⟨rfl, rfl, rfl⟩

/-- C9 witness: the theorem applied at a concrete input. -/
theorem c9_witness :
    (compare_results [[Value.vint 1]] [[Value.vint 2]] ["a"] ["b"] =
      some ⟨false, false, false, 1, 1, ["a"], ["b"]⟩) ∧
    ((⟨false, false, false, 1, 1, ["a"], ["b"]⟩ : Verdict).correct =
      ((⟨false, false, false, 1, 1, ["a"], ["b"]⟩ : Verdict).columns_match &&
        (⟨false, false, false, 1, 1, ["a"], ["b"]⟩ : Verdict).results_match) ∧
      (⟨false, false, false, 1, 1, ["a"], ["b"]⟩ : Verdict).user_row_count = 1 ∧
      (⟨false, false, false, 1, 1, ["a"], ["b"]⟩ : Verdict).expected_row_count = 1) := by
  have h : compare_results [[Value.vint 1]] [[Value.vint 2]] ["a"] ["b"] =
      some ⟨false, false, false, 1, 1, ["a"], ["b"]⟩ := by decide
  exact ⟨h, c9_correct_conjunction_and_raw_counts _ _ _ _ _ h⟩

/-- C10 counterexample: `results_match` can be true while the multisets of
normalized rows (as tagged engine values) differ — the comparison
identifies the integer 1 with the float 1.0, so the claimed "iff the
multisets of normalized rows are equal" fails in the only-if direction. -/
theorem c10_counterexample :
    (compare_results [[Value.vint 1]] [[Value.vfloat 1]] ["a"] ["a"]).map
      Verdict.results_match = some true ∧
    ((([[Value.vint 1]] : List Row).map normalize_row : Multiset Row) ≠
      (([[Value.vfloat 1]] : List Row).map normalize_row : Multiset Row)) := by
  decide

/-- C10 amended: row comparison uses multiset (bag) semantics up to the
engine's value equality — whenever a verdict is returned, `results_match`
holds iff the normalized row lists are equal as multisets of canonical
keys (value-equality classes, which identify numerically equal values of
different numeric kinds); duplicates are never collapsed. -/
theorem c10_bag_semantics_up_to_value_equality :
    ∀ (u e : List Row) (uc ec : List String) (v : Verdict),
      compare_results u e uc ec = some v →
      (v.results_match = true ↔
        (((u.map normalize_row).map keyRow : List (List K)) : Multiset (List K)) =
          (((e.map normalize_row).map keyRow : List (List K)) : Multiset (List K))) := by
  intro u e uc ec v h
  obtain ⟨us, es, hsu, hse, hv⟩ := compare_results_inv h
  subst hv
  show pyListEqRows us es = true ↔ _
  constructor
  · intro hr
    have hkeys := pyListEqRows_key_eq hr
    have h1 : ((u.map normalize_row).map keyRow).Perm (us.map keyRow) :=
      ((pySortRows_perm hsu).map keyRow).symm
    have h2 : (es.map keyRow).Perm ((e.map normalize_row).map keyRow) :=
      (pySortRows_perm hse).map keyRow
    exact Multiset.coe_eq_coe.mpr (h1.trans (hkeys ▸ h2))
  · intro hm
    exact pySortRows_eq_of_key_perm hsu hse (Multiset.coe_eq_coe.mp hm)

/-- C10 witness: the amended theorem applied at the duplicate-row example
`[(1,),(1,)]` vs `[(1,)]` — the key multisets differ, so by the theorem
the verdict cannot have `results_match = true`. -/
theorem c10_witness :
    (compare_results [[Value.vint 1], [Value.vint 1]] [[Value.vint 1]] ["a"] ["a"] =
      some ⟨true, false, false, 2, 1, ["a"], ["a"]⟩) ∧
    (⟨true, false, false, 2, 1, ["a"], ["a"]⟩ : Verdict).results_match ≠ true := by
  have h : compare_results [[Value.vint 1], [Value.vint 1]] [[Value.vint 1]] ["a"] ["a"] =
      some ⟨true, false, false, 2, 1, ["a"], ["a"]⟩ := by decide
  refine ⟨h, ?_⟩
  intro htrue
  have hm := (c10_bag_semantics_up_to_value_equality _ _ _ _ _ h).mp htrue
  revert hm
  decide
